import Mathlib

/-!
Verification of the job-application scripts repository.

The definitions below are a shallow embedding of the Python sources:

* `Scraper` embeds `internship_scraper.py` — the `filter_jobs` masks
  (remote/hybrid keyword mask and salary mask), `search_company_jobs`
  with its catch-all error handling, and the output loop of `main`.
  A pandas `DataFrame` of listings is embedded as a `List Listing`;
  `NaN`/missing cells are embedded as `none`; row-wise boolean masks
  become `Bool`-valued functions on `Listing` and `df[mask]` becomes
  `List.filter`.
* `JobPostings` embeds `parse_markdown_table` from `job_postings.py`,
  with a Python string embedded as a `List Char` and `str.split('|')`
  and `str.strip()` re-implemented structurally.
* `SpecModel` holds definitions modelled from the specification for
  components the specification describes but that have no code under
  `src/` (the salary normalizer and the whole-word internship
  classifier).
-/

/-- Lower-cased character list of a string; embeds Python's
case-insensitive (`case=False`) comparisons. -/
def lowerL (s : String) : List Char := s.toList.map Char.toLower

/-- Case-insensitive substring test: `kw` occurs inside `hay` ignoring
case.  Embeds `Series.str.contains(kw, case=False)` for a single
keyword. -/
def containsCI (hay kw : String) : Bool := decide (lowerL kw <:+: lowerL hay)

namespace Scraper

/-- One row of the jobs `DataFrame` returned by the provider in
`internship_scraper.py`.  Missing (`NaN`) cells are `none`; salary
amounts are embedded as rationals. -/
structure Listing where
  title : Option String
  company : Option String
  location : Option String
  description : Option String
  is_remote : Option Bool
  min_amount : Option ℚ
  max_amount : Option ℚ
  interval : Option String
  job_url : Option String
deriving DecidableEq, Repr

/-- The `remote_keywords` list of `filter_jobs`. -/
def remote_keywords : List String :=
  ["remote", "hybrid", "virtual", "work from home", "wfh",
   "telecommut", "flexible location", "work-from-home",
   "remote optional", "hybrid optional", "remote eligible",
   "remote first", "remote-first", "remote/hybrid", "anywhere"]

/-- The alternation `'Google|Microsoft|Amazon|Apple|Meta|IBM|Intel'`
used as the allowlist branch of the salary mask. -/
def major_tech_companies : List String :=
  ["Google", "Microsoft", "Amazon", "Apple", "Meta", "IBM", "Intel"]

/-- `field.str.contains('|'.join(kws), case=False, na=False)` for one
cell: a missing cell never matches (`na=False`); otherwise the cell
matches if any keyword is a case-insensitive substring. -/
def optContainsAny (field : Option String) (kws : List String) : Bool :=
  match field with
  | none => false
  | some s => kws.any (fun kw => containsCI s kw)

/-- `(series >= t)` on an optional cell: `NaN >= t` is `False` in
pandas, so a missing amount never passes a threshold. -/
def geOpt (o : Option ℚ) (t : ℚ) : Bool :=
  match o with
  | none => false
  | some m => decide (t ≤ m)

/-- The `is_remote_mask` of `filter_jobs`: the `is_remote` flag is
`True`, or any remote keyword occurs (case-insensitively) in the
location, title or description. -/
def is_remote_mask (j : Listing) : Bool :=
  (j.is_remote == some true) ||
  optContainsAny j.location remote_keywords ||
  optContainsAny j.title remote_keywords ||
  optContainsAny j.description remote_keywords

/-- The `salary_mask` of `filter_jobs`: interval-specific minimums
(hourly ≥ 25, yearly ≥ 52000, monthly ≥ 4300), or a present
`max_amount` ≥ 52000, or a major-tech employer name match. -/
def salary_mask (j : Listing) : Bool :=
  ((j.interval == some "hourly") && geOpt j.min_amount 25) ||
  ((j.interval == some "yearly") && geOpt j.min_amount 52000) ||
  ((j.interval == some "monthly") && geOpt j.min_amount 4300) ||
  geOpt j.max_amount 52000 ||
  optContainsAny j.company major_tech_companies

/-- `filter_jobs`: select the remote/hybrid rows, then of those the
rows passing the salary mask.  (`jobs_df.empty` short-circuit is the
same as filtering the empty list.) -/
def filter_jobs (jobs : List Listing) : List Listing :=
  (jobs.filter is_remote_mask).filter salary_mask

/-- `search_company_jobs`: query the provider for one company inside a
`try`/`except`; any provider failure is caught and an empty frame is
returned.  The provider is a parameter (one synchronous call per
company). -/
def search_company_jobs (provider : String → Except String (List Listing))
    (company : String) : List Listing :=
  match provider company with
  | .ok jobs => jobs
  | .error _ => []

/-- The per-company body of `main`: search, filter; a company whose
(filtered) result is empty contributes no rows. -/
def company_rows (provider : String → Except String (List Listing))
    (company : String) : List Listing :=
  filter_jobs (search_company_jobs provider company)

/-- The rows written in a single scan of `main`: companies are processed
in order and each accepted row of each company is appended. -/
def runOnce (provider : String → Except String (List Listing))
    (companies : List String) : List Listing :=
  companies.flatMap (company_rows provider)

/-- `main`'s effect on the output file: `open(output_file, 'w', ...)`
truncates whatever a previous run left there, then the scan's rows are
appended; the previous contents never influence the result. -/
def main (provider : String → Except String (List Listing))
    (companies : List String) (_prev : List Listing) : List Listing :=
  runOnce provider companies

end Scraper

namespace JobPostings

/-- Python `str.split(sep)` on a character list: splitting an empty
string yields one empty field, and each separator starts a new field. -/
def splitOnChar (sep : Char) : List Char → List (List Char)
  | [] => [[]]
  | c :: cs =>
    let r := splitOnChar sep cs
    if c == sep then [] :: r
    else (c :: r.headD []) :: r.tail

/-- Python `str.strip()`: drop whitespace from both ends. -/
def trimChars (l : List Char) : List Char :=
  ((l.dropWhile Char.isWhitespace).reverse.dropWhile Char.isWhitespace).reverse

/-- `[cell.strip() for cell in line.split('|') if cell.strip()]`: the
stripped, non-empty cells of one table line. -/
def cellsOf (line : List Char) : List (List Char) :=
  ((splitOnChar '|' line).map trimChars).filter (fun cell => !cell.isEmpty)

/-- `parse_markdown_table`: fewer than two lines raises `ValueError`
(embedded as `.error`); otherwise the first line gives the headers, the
second (divider) line is skipped, and each remaining line is kept iff it
is not blank and its non-empty cell count equals the header count. -/
def parse_markdown_table (table_lines : List (List Char)) :
    Except String ((List (List Char)) × List (List (List Char))) :=
  match table_lines with
  | header_line :: _divider :: data_lines =>
    let headers := cellsOf header_line
    let rows := data_lines.filterMap fun line =>
      if (trimChars line).isEmpty then none
      else
        let cells := cellsOf line
        if cells.length = headers.length then some cells else none
    .ok (headers, rows)
  | _ => .error "No markdown table found in the file."

end JobPostings

namespace SpecModel

/-- Modelled from the spec: hours represented by one unit of each pay
interval, per the conversion table of §4.3 (40-hour week, 52 weeks/year,
4.33 weeks/month); no code under `src/` implements a salary normalizer.
An unknown or absent interval has no conversion factor. -/
def hoursPerInterval : String → Option ℚ
  | "hourly" => some 1
  | "daily" => some 8
  | "weekly" => some 40
  | "monthly" => some (40 * (433 / 100))
  | "yearly" => some (40 * 52)
  | _ => none

/-- Modelled from the spec: the salary normalizer of §4.3 — divide the
amount by the hours of its interval, and return 0 when the interval or
the amount is missing; no code under `src/` implements it. -/
def NormalizedRate (amount : Option ℚ) (interval : Option String) : ℚ :=
  match amount, interval with
  | some a, some i =>
    match hoursPerInterval i with
    | some h => a / h
    | none => 0
  | _, _ => 0

/-- A word character for whole-word matching (letters and digits). -/
def isWordChar (c : Char) : Bool := c.isAlphanum

/-- Accumulator pass for `splitWords`: `acc` holds the (reversed)
word-in-progress. -/
def splitWordsAux : List Char → List Char → List (List Char)
  | acc, [] => if acc.isEmpty then [] else [acc.reverse]
  | acc, c :: cs =>
    if isWordChar c then splitWordsAux (c :: acc) cs
    else if acc.isEmpty then splitWordsAux [] cs
    else acc.reverse :: splitWordsAux [] cs

/-- Maximal runs of word characters of a character list. -/
def splitWords (l : List Char) : List (List Char) := splitWordsAux [] l

/-- The internship keywords of spec §4.1. -/
def intern_keywords : List String := ["intern", "internship", "interns"]

/-- Modelled from the spec: the internship classifier of §4.1 — true iff
the title contains `intern`, `internship` or `interns` as a whole word,
case-insensitively; no code under `src/` implements a title classifier
(the scraper delegates the internship restriction to the provider
query). -/
def IsInternship (title : String) : Bool :=
  (splitWords (lowerL title)).any
    (fun w => intern_keywords.any (fun kw => w == kw.toList))

end SpecModel

/-! Concrete listings and providers used as test inputs below. -/

/-- A listing whose title is not an internship title but which passes
both masks of `filter_jobs` (remote location, hourly rate 30). -/
def nonInternAccepted : Scraper.Listing :=
  { title := some "Senior Software Engineer", company := some "Acme Corp",
    location := some "Remote", description := none, is_remote := some false,
    min_amount := some 30, max_amount := none, interval := some "hourly",
    job_url := some "https://example.com/1" }

/-- An accepted internship listing with a fixed posting URL. -/
def dupListing : Scraper.Listing :=
  { title := some "Software Intern", company := some "Acme Corp",
    location := some "Remote", description := none, is_remote := some false,
    min_amount := some 30, max_amount := none, interval := some "hourly",
    job_url := some "https://example.com/post" }

/-- A provider that returns the same single listing for every company,
so the same posting URL is returned by two different employer queries. -/
def dupProvider : String → Except String (List Scraper.Listing) :=
  fun _ => .ok [dupListing]

/-- The remote/hybrid example of spec §8: `is_remote_flag=false`,
location `Austin, TX (Hybrid)`. -/
def austinListing : Scraper.Listing :=
  { title := some "Data Intern", company := some "Acme Corp",
    location := some "Austin, TX (Hybrid)", description := none,
    is_remote := some false, min_amount := none, max_amount := none,
    interval := none, job_url := some "https://example.com/2" }

/-- The allowlist example of spec §8: `min_amount=20`, hourly, employer
Google, remote. -/
def googleLowIntern : Scraper.Listing :=
  { title := some "Software Intern", company := some "Google",
    location := some "Remote", description := none, is_remote := some false,
    min_amount := some 20, max_amount := none, interval := some "hourly",
    job_url := some "https://example.com/3" }

/-- A remote listing with no pay interval and no `max_amount`, from a
non-allowlisted employer, but with a (large) `min_amount` present. -/
def noSalaryListing : Scraper.Listing :=
  { title := some "Research Intern", company := some "Acme Corp",
    location := some "Remote", description := none, is_remote := some true,
    min_amount := some 100, max_amount := none, interval := none,
    job_url := some "https://example.com/4" }

/-- An accepted listing returned by the non-failing companies of
`failProvider`. -/
def okListing : Scraper.Listing :=
  { title := some "Quant Intern", company := some "Acme Corp",
    location := some "Remote", description := none, is_remote := some false,
    min_amount := some 40, max_amount := none, interval := some "hourly",
    job_url := some "https://example.com/5" }

/-- A provider whose query for `CompanyB` raises; every other company
query succeeds with one listing. -/
def failProvider : String → Except String (List Scraper.Listing) :=
  fun c => match c with
  | "CompanyB" => .error "boom"
  | _ => .ok [okListing]

/-- Table lines for the markdown-table example: a header, a divider, a
blank line, a row with too few cells, and a well-formed row. -/
def tableExample : List (List Char) :=
  [ "| a | b |".toList, "|---|---|".toList, "".toList,
    "| 1 |".toList, "| 1 | 2 |".toList ]

/-! Theorems. -/

theorem containsCI_iff (hay kw : String) :
    containsCI hay kw = true ↔ lowerL kw <:+: lowerL hay :=
  decide_eq_true_iff

theorem geOpt_iff (o : Option ℚ) (t : ℚ) :
    Scraper.geOpt o t = true ↔ ∃ m, o = some m ∧ t ≤ m := by
  cases o <;> simp [Scraper.geOpt]

theorem optContainsAny_iff (field : Option String) (kws : List String) :
    Scraper.optContainsAny field kws = true ↔
      ∃ s, field = some s ∧ ∃ kw ∈ kws, lowerL kw <:+: lowerL s := by
  cases field <;> simp [Scraper.optContainsAny, List.any_eq_true, containsCI_iff]

theorem mem_filter_jobs {j : Scraper.Listing} {jobs : List Scraper.Listing} :
    j ∈ Scraper.filter_jobs jobs ↔
      j ∈ jobs ∧ Scraper.is_remote_mask j = true ∧ Scraper.salary_mask j = true := by
  constructor
  · intro h
    have h1 := List.mem_filter.mp h
    have h2 := List.mem_filter.mp h1.1
    exact ⟨h2.1, h2.2, h1.2⟩
  · rintro ⟨hj, hr, hs⟩
    exact List.mem_filter.mpr ⟨List.mem_filter.mpr ⟨hj, hr⟩, hs⟩


/-- C4: the remote/hybrid classifier returns true iff the `is_remote`
flag is `True` or some configured keyword occurs as a case-insensitive
substring of the title, location or description; missing fields never
match and no signal has precedence; in particular a listing with
`is_remote=False` and location `Austin, TX (Hybrid)` is classified
remote/hybrid. -/
theorem is_remote_mask_spec :
    (∀ j : Scraper.Listing,
      Scraper.is_remote_mask j = true ↔
        j.is_remote = some true ∨
        ∃ kw ∈ Scraper.remote_keywords,
          (∃ s, j.title = some s ∧ lowerL kw <:+: lowerL s) ∨
          (∃ s, j.location = some s ∧ lowerL kw <:+: lowerL s) ∨
          (∃ s, j.description = some s ∧ lowerL kw <:+: lowerL s)) ∧
    Scraper.is_remote_mask austinListing = true ∧
    austinListing.is_remote = some false := by
  refine ⟨?_, by decide, by decide⟩
  intro j
  simp only [Scraper.is_remote_mask, Bool.or_eq_true, beq_iff_eq, optContainsAny_iff]
  constructor
  · rintro (((hf | ⟨s, hs, kw, hkw, hin⟩) | ⟨s, hs, kw, hkw, hin⟩) | ⟨s, hs, kw, hkw, hin⟩)
    · exact Or.inl hf
    · exact Or.inr ⟨kw, hkw, Or.inr (Or.inl ⟨s, hs, hin⟩)⟩
    · exact Or.inr ⟨kw, hkw, Or.inl ⟨s, hs, hin⟩⟩
    · exact Or.inr ⟨kw, hkw, Or.inr (Or.inr ⟨s, hs, hin⟩)⟩
  · rintro (hf | ⟨kw, hkw, ⟨s, hs, hin⟩ | ⟨s, hs, hin⟩ | ⟨s, hs, hin⟩⟩)
    · exact Or.inl (Or.inl (Or.inl hf))
    · exact Or.inl (Or.inr ⟨s, hs, kw, hkw, hin⟩)
    · exact Or.inl (Or.inl (Or.inr ⟨s, hs, kw, hkw, hin⟩))
    · exact Or.inr ⟨s, hs, kw, hkw, hin⟩

/-- C1 (amended): `filter_jobs` accepts a listing iff it is classified
remote/hybrid and at least one salary condition holds — hourly interval
with `min_amount` ≥ 25, yearly interval with `min_amount` ≥ 52000,
monthly interval with `min_amount` ≥ 4300, a present `max_amount` ≥
52000, or a major-tech employer-name match; the title is never examined
by the filter. -/
theorem filter_jobs_accepts_iff :
    ∀ (jobs : List Scraper.Listing) (j : Scraper.Listing),
      j ∈ Scraper.filter_jobs jobs ↔
        j ∈ jobs ∧ Scraper.is_remote_mask j = true ∧
        ((j.interval = some "hourly" ∧ ∃ m, j.min_amount = some m ∧ 25 ≤ m) ∨
         (j.interval = some "yearly" ∧ ∃ m, j.min_amount = some m ∧ 52000 ≤ m) ∨
         (j.interval = some "monthly" ∧ ∃ m, j.min_amount = some m ∧ 4300 ≤ m) ∨
         (∃ m, j.max_amount = some m ∧ 52000 ≤ m) ∨
         (∃ s, j.company = some s ∧ ∃ kw ∈ Scraper.major_tech_companies,
            lowerL kw <:+: lowerL s)) := by
  intro jobs j
  rw [mem_filter_jobs]
  refine and_congr_right fun _ => and_congr_right fun _ => ?_
  simp only [Scraper.salary_mask, Bool.or_eq_true, Bool.and_eq_true, beq_iff_eq,
    geOpt_iff, optContainsAny_iff, or_assoc]

/-- C1 (counterexample): a listing whose title denotes no internship —
`Senior Software Engineer` — but which is remote with an hourly minimum
of 30 is accepted by `filter_jobs`, refuting the claim that acceptance
requires the title to denote an internship. -/
theorem filter_jobs_ignores_title :
    nonInternAccepted ∈ Scraper.filter_jobs [nonInternAccepted] ∧
    nonInternAccepted.title = some "Senior Software Engineer" ∧
    SpecModel.IsInternship "Senior Software Engineer" = false := by
  exact ⟨by decide, rfl, by decide⟩

/-- C2: the salary normalizer leaves hourly amounts unchanged, divides
daily by 8, weekly by 40, monthly by 40 × 4.33, yearly by 40 × 52, and
returns 0 for a missing amount or interval; numerically,
`NormalizedRate(2000, monthly)` is within 0.01 of 11.55 and
`NormalizedRate(62400, yearly)` equals 30. -/
theorem normalizedRate_spec :
    (∀ a : ℚ, SpecModel.NormalizedRate (some a) (some "hourly") = a) ∧
    (∀ a : ℚ, SpecModel.NormalizedRate (some a) (some "daily") = a / 8) ∧
    (∀ a : ℚ, SpecModel.NormalizedRate (some a) (some "weekly") = a / 40) ∧
    (∀ a : ℚ,
      SpecModel.NormalizedRate (some a) (some "monthly") = a / (40 * (433 / 100))) ∧
    (∀ a : ℚ, SpecModel.NormalizedRate (some a) (some "yearly") = a / (40 * 52)) ∧
    (∀ itv : Option String, SpecModel.NormalizedRate none itv = 0) ∧
    (∀ a : Option ℚ, SpecModel.NormalizedRate a none = 0) ∧
    |SpecModel.NormalizedRate (some 2000) (some "monthly") - 1155 / 100| < 1 / 100 ∧
    SpecModel.NormalizedRate (some 62400) (some "yearly") = 30 := by
  refine ⟨fun a => ?_, fun a => rfl, fun a => rfl, fun a => rfl, fun a => rfl,
    fun itv => ?_, fun a => ?_, ?_, ?_⟩
  · show a / 1 = a
    exact div_one a
  · cases itv <;> rfl
  · cases a <;> rfl
  · have h0 : SpecModel.NormalizedRate (some 2000) (some "monthly")
        = (2000 : ℚ) / (40 * (433 / 100)) := rfl
    rw [h0, abs_lt]
    constructor <;> norm_num
  · norm_num [SpecModel.NormalizedRate, SpecModel.hoursPerInterval]

/-- C3: the internship classifier accepts a title iff some maximal
alphanumeric word of the lower-cased title is `intern`, `internship` or
`interns`; in particular `International Corp` is rejected while titles
carrying `intern` as a standalone word are accepted. -/
theorem isInternship_spec :
    (∀ t : String, SpecModel.IsInternship t = true ↔
      ∃ w ∈ SpecModel.splitWords (lowerL t),
        w ∈ SpecModel.intern_keywords.map String.toList) ∧
    SpecModel.IsInternship "Software Intern" = true ∧
    SpecModel.IsInternship "INTERNSHIP - Data" = true ∧
    SpecModel.IsInternship "interns wanted" = true ∧
    SpecModel.IsInternship "International Corp" = false := by
  refine ⟨?_, by decide, by decide, by decide, by decide⟩
  intro t
  simp only [SpecModel.IsInternship, List.any_eq_true, List.mem_map, beq_iff_eq]
  constructor
  · rintro ⟨w, hw, kw, hkw, heq⟩
    exact ⟨w, hw, kw, hkw, heq.symm⟩
  · rintro ⟨w, hw, kw, hkw, heq⟩
    exact ⟨w, hw, kw, hkw, heq.symm⟩

/-- C5 (counterexample): there is no deduplication gate — when two
employer queries return the same listing (same `posting_url`), one scan
of `main` writes the posting twice, refuting the claim that each
`posting_url` is recorded at most once. -/
theorem runOnce_writes_duplicates :
    Scraper.runOnce dupProvider ["CompanyA", "CompanyB"] = [dupListing, dupListing] ∧
    dupListing.job_url = some "https://example.com/post" := by
  exact ⟨by decide, rfl⟩

/-- C5 (amended): running the pipeline twice on identical provider
output leaves the output file identical to a single run — not because of
a deduplication gate, but because `main` opens the output file in write
mode and truncates it, so the rows of a run never depend on what a
previous run persisted. -/
theorem main_rerun_same_file :
    ∀ (provider : String → Except String (List Scraper.Listing))
      (companies : List String) (prev : List Scraper.Listing),
      Scraper.main provider companies (Scraper.main provider companies prev)
        = Scraper.main provider companies prev ∧
      Scraper.main provider companies prev = Scraper.runOnce provider companies :=
  fun _ _ _ => ⟨rfl, rfl⟩

/-- C6: for a remote/hybrid listing whose `min_amount` (when present)
is below every interval threshold and whose `max_amount` (when present)
is below the yearly minimum, membership in the filtered output is
equivalent to an allowlist match of the employer name. -/
theorem allowlist_decides_low_salary (j : Scraper.Listing)
    (hr : Scraper.is_remote_mask j = true)
    (hmin : ∀ m : ℚ, j.min_amount = some m → m < 25)
    (hmax : ∀ m : ℚ, j.max_amount = some m → m < 52000) :
    ∀ jobs : List Scraper.Listing, j ∈ jobs →
      (j ∈ Scraper.filter_jobs jobs ↔
        Scraper.optContainsAny j.company Scraper.major_tech_companies = true) := by
  intro jobs hj
  rw [mem_filter_jobs]
  have h25 : Scraper.geOpt j.min_amount 25 = false := by
    rw [Bool.eq_false_iff]
    intro h
    obtain ⟨m, hm, hle⟩ := (geOpt_iff _ _).mp h
    exact absurd hle (not_le.mpr (hmin m hm))
  have h52 : Scraper.geOpt j.min_amount 52000 = false := by
    rw [Bool.eq_false_iff]
    intro h
    obtain ⟨m, hm, hle⟩ := (geOpt_iff _ _).mp h
    have : m < 25 := hmin m hm
    linarith
  have h43 : Scraper.geOpt j.min_amount 4300 = false := by
    rw [Bool.eq_false_iff]
    intro h
    obtain ⟨m, hm, hle⟩ := (geOpt_iff _ _).mp h
    have : m < 25 := hmin m hm
    linarith
  have hmx : Scraper.geOpt j.max_amount 52000 = false := by
    rw [Bool.eq_false_iff]
    intro h
    obtain ⟨m, hm, hle⟩ := (geOpt_iff _ _).mp h
    exact absurd hle (not_le.mpr (hmax m hm))
  simp [hj, hr, Scraper.salary_mask, h25, h52, h43, hmx]

/-- C6 (witness): the spec §8 example — `min_amount=20`, hourly, remote,
employer Google — is accepted via the allowlist path. -/
theorem allowlist_decides_low_salary_witness :
    googleLowIntern ∈ Scraper.filter_jobs [googleLowIntern] :=
  (allowlist_decides_low_salary googleLowIntern (by decide)
    (fun m hm => Option.some.inj hm ▸ (by decide : (20 : ℚ) < 25))
    (fun m hm => nomatch hm)
    [googleLowIntern] (by decide)).mpr (by decide)

/-- C7: a listing with no pay interval and no `max_amount` whose
employer matches no allowlist entry is never in the filtered output,
whatever its other fields (a present `min_amount` included). -/
theorem missing_salary_rejected (j : Scraper.Listing)
    (hint : j.interval = none) (hmax : j.max_amount = none)
    (hcomp : Scraper.optContainsAny j.company Scraper.major_tech_companies = false) :
    ∀ jobs : List Scraper.Listing, j ∉ Scraper.filter_jobs jobs := by
  intro jobs hmem
  obtain ⟨-, -, hsal⟩ := mem_filter_jobs.mp hmem
  rw [Scraper.salary_mask, hint, hmax, hcomp] at hsal
  simp [Scraper.geOpt] at hsal

/-- C7 (witness): a remote listing with `min_amount=100` but no interval
and no `max_amount`, from employer `Acme Corp`, is rejected. -/
theorem missing_salary_rejected_witness :
    noSalaryListing ∉ Scraper.filter_jobs [noSalaryListing] :=
  missing_salary_rejected noSalaryListing rfl rfl (by decide) [noSalaryListing]

/-- C8: a provider failure for one employer yields an empty result for
that employer, and a scan over a company list containing it produces
exactly the rows of the other companies — the failing company is skipped
and processing continues. -/
theorem provider_failure_skipped
    (provider : String → Except String (List Scraper.Listing))
    (c e : String) (h : provider c = .error e) :
    Scraper.search_company_jobs provider c = [] ∧
    ∀ cs1 cs2 : List String,
      Scraper.runOnce provider (cs1 ++ c :: cs2)
        = Scraper.runOnce provider cs1 ++ Scraper.runOnce provider cs2 := by
  have hempty : Scraper.search_company_jobs provider c = [] := by
    simp [Scraper.search_company_jobs, h]
  refine ⟨hempty, fun cs1 cs2 => ?_⟩
  simp [Scraper.runOnce, Scraper.company_rows, hempty, Scraper.filter_jobs]

/-- C8 (witness): with a provider failing exactly on `CompanyB`, the
scan of `CompanyA, CompanyB, CompanyC` equals the concatenation of the
scans of `CompanyA` and `CompanyC`. -/
theorem provider_failure_skipped_witness :
    Scraper.search_company_jobs failProvider "CompanyB" = [] ∧
    Scraper.runOnce failProvider (["CompanyA"] ++ "CompanyB" :: ["CompanyC"])
      = Scraper.runOnce failProvider ["CompanyA"]
        ++ Scraper.runOnce failProvider ["CompanyC"] := by
  have h := provider_failure_skipped failProvider "CompanyB" "boom" rfl
  exact ⟨h.1, h.2 ["CompanyA"] ["CompanyC"]⟩

/-- C9: filtering only selects — the filtered output is a sublist of
the input, so every output row is an input row, unchanged and in input
order; no row is fabricated or altered. -/
theorem filter_jobs_never_fabricates :
    ∀ jobs : List Scraper.Listing, (Scraper.filter_jobs jobs).Sublist jobs :=
  fun _ => (List.filter_sublist _).trans (List.filter_sublist _)

/-- C10: `parse_markdown_table` fails on fewer than two table lines;
on success every returned row has exactly as many cells as the header
row; blank lines and lines with a deviating non-empty cell count are
dropped silently, as the concrete five-line table shows. -/
theorem parse_markdown_table_spec :
    (∀ table_lines : List (List Char), table_lines.length < 2 →
      JobPostings.parse_markdown_table table_lines
        = .error "No markdown table found in the file.") ∧
    (∀ (table_lines : List (List Char)) headers rows,
      JobPostings.parse_markdown_table table_lines = .ok (headers, rows) →
      ∀ r ∈ rows, r.length = headers.length) ∧
    JobPostings.parse_markdown_table tableExample
      = .ok ([ "a".toList, "b".toList ], [[ "1".toList, "2".toList ]]) := by
  refine ⟨?_, ?_, by rfl⟩
  · intro tl h
    match tl with
    | [] => rfl
    | [_] => rfl
    | _ :: _ :: _ => simp only [List.length_cons] at h; omega
  · intro tl headers rows heq r hr
    match tl, heq with
    | l0 :: l1 :: rest, heq =>
      simp only [JobPostings.parse_markdown_table, Except.ok.injEq,
        Prod.mk.injEq] at heq
      obtain ⟨hh, hrows⟩ := heq
      subst hh
      subst hrows
      obtain ⟨line, -, hf⟩ := List.mem_filterMap.mp hr
      by_cases hb : (JobPostings.trimChars line).isEmpty = true
      · simp [hb] at hf
      · simp only [hb, if_false, Bool.false_eq_true] at hf
        by_cases hl :
            (JobPostings.cellsOf line).length = (JobPostings.cellsOf l0).length
        · simp only [hl, if_true, Option.some.injEq] at hf
          rw [← hf]
          exact hl
        · simp [hl] at hf

/-- C10 (witness): a single table line is rejected, and the one row the
five-line example yields has as many cells as its header. -/
theorem parse_markdown_table_spec_witness :
    JobPostings.parse_markdown_table [ "| a |".toList ]
      = .error "No markdown table found in the file." ∧
    ([ "1".toList, "2".toList ] : List (List Char)).length
      = ([ "a".toList, "b".toList ] : List (List Char)).length :=
  ⟨parse_markdown_table_spec.1 [ "| a |".toList ] (by decide),
   parse_markdown_table_spec.2.1 tableExample [ "a".toList, "b".toList ]
     [[ "1".toList, "2".toList ]] (by rfl) [ "1".toList, "2".toList ] (by decide)⟩
